import Mathlib

/-!
# Verification of the Resume Parser & Ranker core (src/App.py)

A shallow embedding of the pure core of `src/App.py`:

* `extract_skills` — whole-word, case-insensitive vocabulary matching
  (App.py lines 153–167);
* `calculate_match_score` — set-intersection scoring (lines 181–187);
* `extract_contact_info` — first email / first phone regex match
  (lines 129–136), with an executable model of the two concrete
  regular expressions and of Python's `re.findall` scanning order;
* `extract_name` — first multi-token PERSON span heuristic (lines 138–151),
  parametrised by the span list the external NER model produces;
* `extract_text` and the per-file processing loop (lines 99–114, 259–295),
  parametrised by the outcomes of the external PDF/DOCX readers;
* the ranking step (lines 297–311): pandas `sort_values(by="Score",
  ascending=False)` reverses the rows, takes a (stable) ascending argsort,
  and reverses the result — the stable descending order, with equal-score
  rows in input order — followed by 1-based rank assignment.

Strings are modelled as `List Char`; character classes follow the ASCII
ranges written literally in the source regexes (`[A-Za-z0-9...]`, `\d`,
`\s`, `\w`), which is exact for ASCII input.
-/

/-- Python regex word character `\w` over ASCII: `[A-Za-z0-9_]`. -/
def isWordChar (c : Char) : Bool := c.isAlphanum || c == '_'

/-- `str.lower()` over ASCII, character by character. -/
def lowerL (s : List Char) : List Char := s.map Char.toLower

/-- Whether position `i` of `t` holds a word character (`false` past the end). -/
def isWordAt (t : List Char) (i : Nat) : Bool := t[i]?.any isWordChar

/-- Whether the position just left of gap `i` holds a word character
(the left of gap `0` is the text edge, a non-word position). -/
def leftIsWordAt (t : List Char) (i : Nat) : Bool :=
  match i with
  | 0 => false
  | j + 1 => isWordAt t j

/-- The regex `\b` word-boundary test at gap `i` of `t`: the two sides of
the gap disagree about being a word character. -/
def boundaryAt (t : List Char) (i : Nat) : Bool :=
  leftIsWordAt t i != isWordAt t i

/-- The literal characters `pat` occur in `t` starting at position `i`. -/
def matchAt (pat t : List Char) (i : Nat) : Bool :=
  decide ((t.drop i).take pat.length = pat)

/-- `re.search(r'\b' + re.escape(pat) + r'\b', t)` succeeds: the escaped
pattern is a literal, so a match is an occurrence of `pat` flanked by `\b`
boundaries on both sides. -/
def wholeWordMatch (pat t : List Char) : Bool :=
  (List.range (t.length + 1)).any fun i =>
    matchAt pat t i && boundaryAt t i && boundaryAt t (i + pat.length)

/-- `extract_skills` (App.py 153–167): lowercase the text once, and keep
every vocabulary entry whose lowercased form occurs in the lowercased text
as a `\b`-delimited whole word.  The Python code accumulates matches into a
`set` and returns `list(found_skills)`; we return the matching entries in
vocabulary order, which has the same members. -/
def extract_skills (text : String) (skills_list : List String) : List String :=
  skills_list.filter fun skill =>
    wholeWordMatch (lowerL skill.data) (lowerL text.data)

/-- `TARGET_SKILLS` (App.py 19–27), the configured vocabulary. -/
def TARGET_SKILLS : List String :=
  ["python", "java", "c++", "javascript", "sql", "nosql", "mongodb", "postgresql",
   "aws", "azure", "gcp", "docker", "kubernetes", "git", "jira", "agile", "scrum",
   "machine learning", "deep learning", "nlp", "natural language processing",
   "data analysis", "data science", "pandas", "numpy", "scikit-learn", "tensorflow",
   "pytorch", "react", "angular", "vue", "node.js", "flask", "django",
   "project management", "communication", "teamwork", "problem solving"]

/-- `calculate_match_score` (App.py 181–187):
`len(set(resume_skills).intersection(set(job_desc_keywords)))`. -/
def calculate_match_score (resume_skills job_desc_keywords : List String) : Nat :=
  (resume_skills.toFinset ∩ job_desc_keywords.toFinset).card

/-- The spec's notion of a whole-word occurrence ("bounded by non-word
characters or text edges", case-insensitively): the lowercased entry occurs
in the lowercased text with each side either a text edge or a non-word
character.  Used to compare the spec's wording with the code's `\b` regex. -/
def specWholeWordOccurs (skill text : String) : Bool :=
  let pat := lowerL skill.data
  let t := lowerL text.data
  (List.range (t.length + 1)).any fun i =>
    matchAt pat t i && !(leftIsWordAt t i) && !(isWordAt t (i + pat.length))

/-- A nonempty character list beginning and ending with word characters. -/
def wordBounded (s : List Char) : Bool :=
  (s.head?.any isWordChar) && (s.getLast?.any isWordChar)

example : extract_skills "I write javascript daily" ["java", "javascript"]
    = ["javascript"] := by decide

example : extract_skills "c++" TARGET_SKILLS = [] := by decide

example : specWholeWordOccurs "c++" "c++" = true := by decide

example : extract_skills "Python, AWS and Docker" ["python", "aws", "docker", "sql"]
    = ["python", "aws", "docker"] := by decide

/-!
## A model of the two concrete regexes of `extract_contact_info`

The email pattern `\b[A-Za-z0-9._%+-]+@[A-Za-z0-9.-]+\.[A-Z|a-z]{2,}\b`
and the phone pattern `\(?\d{3}\)?[-.\s]?\d{3}[-.\s]?\d{4}` use only
character classes with greedy `+` / `{n}` / `{n,}` / `?` quantifiers,
literals, and `\b`.  `ends r t i` lists the end positions of the matches of
`r` at start `i` in exactly the order Python's backtracking engine tries
them (greedy: longest repetition first, optional item taken first), so the
head of the list is the match Python finds.
-/

/-- The fragment of Python regexes needed for the two patterns. -/
inductive RE where
  /-- word boundary `\b` -/
  | wb : RE
  /-- `[class]{n}`: exactly `n` characters of the class (with `n = 1`,
  a single character or escaped literal) -/
  | rexact (n : Nat) (p : Char → Bool) : RE
  /-- `[class]?`, greedy -/
  | opt (p : Char → Bool) : RE
  /-- `[class]{lo,}`, greedy (with `lo = 1`, `[class]+`) -/
  | rep (lo : Nat) (p : Char → Bool) : RE
  /-- concatenation -/
  | seq (a b : RE) : RE

/-- Length of the maximal run of class-`p` characters in `t` from `i`. -/
def clsRun (p : Char → Bool) (t : List Char) (i : Nat) : Nat :=
  ((t.drop i).takeWhile p).length

/-- All end positions of matches of `r` in `t` at start `i`, in Python's
backtracking order (the head is the match the engine reports). -/
def ends : RE → List Char → Nat → List Nat
  | .wb, t, i => if boundaryAt t i then [i] else []
  | .rexact n p, t, i =>
      if ((t.drop i).take n).length == n && ((t.drop i).take n).all p
      then [i + n] else []
  | .opt p, t, i =>
      match t[i]? with
      | some c => if p c then [i + 1, i] else [i]
      | none => [i]
  | .rep lo p, t, i =>
      let m := clsRun p t i
      if lo ≤ m then (List.range (m + 1 - lo)).map (fun k => i + m - k) else []
  | .seq a b, t, i => (ends a t i).flatMap fun j => ends b t j

/-- One scanning step of `re.findall`: try each start position from `i`
upward, emit the matched substring, and resume after it (Python advances
one position past a zero-width match).  `fuel` only bounds the recursion;
`t.length + 1 - i` steps always suffice. -/
def pyFindallGo (r : RE) (t : List Char) : Nat → Nat → List (List Char)
  | 0, _ => []
  | fuel + 1, i =>
      if i > t.length then []
      else match (ends r t i).head? with
        | some e =>
            (t.drop i).take (e - i) ::
              pyFindallGo r t fuel (if e = i then i + 1 else e)
        | none => pyFindallGo r t fuel (i + 1)

/-- `re.findall(r, t)` for a groupless pattern: the non-overlapping
matches, scanned left to right. -/
def pyFindall (r : RE) (t : List Char) : List (List Char) :=
  pyFindallGo r t (t.length + 1) 0

/-- `[A-Za-z0-9._%+-]`, the local part class of the email pattern. -/
def emailLocalChar (c : Char) : Bool :=
  c.isAlphanum || c == '.' || c == '_' || c == '%' || c == '+' || c == '-'

/-- `[A-Za-z0-9.-]`, the domain class of the email pattern. -/
def emailDomainChar (c : Char) : Bool :=
  c.isAlphanum || c == '.' || c == '-'

/-- `[A-Z|a-z]`: letters and, literally, the `|` character. -/
def emailTldChar (c : Char) : Bool :=
  (decide ('A' ≤ c) && decide (c ≤ 'Z')) || c == '|' ||
    (decide ('a' ≤ c) && decide (c ≤ 'z'))

/-- `\b[A-Za-z0-9._%+-]+@[A-Za-z0-9.-]+\.[A-Z|a-z]{2,}\b` (App.py 132). -/
def emailRE : RE :=
  .seq .wb (.seq (.rep 1 emailLocalChar)
    (.seq (.rexact 1 (· == '@')) (.seq (.rep 1 emailDomainChar)
      (.seq (.rexact 1 (· == '.')) (.seq (.rep 2 emailTldChar) .wb)))))

/-- Python whitespace over ASCII, as in `\s` and `str.split()`:
space, tab, newline, carriage return, vertical tab, form feed. -/
def pyWhitespace (c : Char) : Bool :=
  c == ' ' || c == '\t' || c == '\n' || c == '\r' || c == '\x0b' || c == '\x0c'

/-- `[-.\s]`, the separator class of the phone pattern (`\s` over ASCII). -/
def phoneSepChar (c : Char) : Bool :=
  c == '-' || c == '.' || pyWhitespace c

/-- `\(?\d{3}\)?[-.\s]?\d{3}[-.\s]?\d{4}` (App.py 134). -/
def phoneRE : RE :=
  .seq (.opt (· == '(')) (.seq (.rexact 3 Char.isDigit)
    (.seq (.opt (· == ')')) (.seq (.opt phoneSepChar)
      (.seq (.rexact 3 Char.isDigit)
        (.seq (.opt phoneSepChar) (.rexact 4 Char.isDigit))))))

/-- `extract_contact_info` (App.py 129–136): `re.findall` both patterns and
keep `matches[0] if matches else None` for each, independently. -/
def extract_contact_info (text : String) : Option String × Option String :=
  let email := pyFindall emailRE text.data
  let phone := pyFindall phoneRE text.data
  (match email with
   | [] => none
   | e :: _ => some (String.mk e),
   match phone with
   | [] => none
   | p :: _ => some (String.mk p))

example : extract_contact_info "" = (none, none) := by decide

example :
    extract_contact_info "Contact Jane Doe at jane.doe@example.com or (555) 123-4567."
      = (some "jane.doe@example.com", some "(555) 123-4567") := by decide

example : (extract_contact_info "12345678901").2 = some "1234567890" := by decide

example :
    (extract_contact_info "a@b.cd then x.y@z.org").1 = some "a@b.cd" := by decide

/-!
## Name extraction

`extract_name` (App.py 138–151) filters the external NER model's entities
down to the PERSON-labelled span texts and then applies a pure policy to
that list; we embed the policy as a function of the span list. -/

/-- Accumulator pass for `pySplitWS`: `acc` is the word currently being
read, in reverse. -/
def pySplitWSGo : List Char → List Char → List (List Char)
  | [], acc => if acc = [] then [] else [acc.reverse]
  | c :: cs, acc =>
      if pyWhitespace c then
        if acc = [] then pySplitWSGo cs []
        else acc.reverse :: pySplitWSGo cs []
      else pySplitWSGo cs (c :: acc)

/-- Python `str.split()` with no argument: split on runs of whitespace,
discarding empty pieces. -/
def pySplitWS (s : List Char) : List (List Char) := pySplitWSGo s []

/-- `len(name.split()) > 1`: the span has more than one whitespace-separated
token. -/
def multiToken (name : String) : Bool :=
  decide (1 < (pySplitWS name.data).length)

/-- `extract_name` (App.py 138–151) as a function of the PERSON span texts
the NER model produced, in document order: return the first span with more
than one token; otherwise the first span, if any; otherwise `none`. -/
def extract_name (person_names : List String) : Option String :=
  match person_names.find? multiToken with
  | some name => some name
  | none => person_names.head?

example : extract_name [] = none := by decide
example : extract_name ["Jane"] = some "Jane" := by decide
example : extract_name ["Acme", "Jane Doe", "Bob Ray"] = some "Jane Doe" := by
  decide
example : extract_name ["Jane", "Bob"] = some "Jane" := by decide

/-!
## Text extraction and the per-file processing loop

The readers (`PyPDF2`, `python-docx`) are external; a file is therefore
modelled together with what each reader would produce on its bytes.  The
`try` blocks of `extract_text_from_pdf` / `extract_text_from_docx` keep the
text accumulated before an exception, so the reader outcome is the list of
page texts (resp. paragraph texts) yielded before the reader either
finished (`threw = false`) or raised (`threw = true`). -/

/-- An uploaded file: its name, the page texts the PDF reader would yield
on its bytes before finishing or raising, likewise the paragraph texts of
the DOCX reader, and the PERSON span texts the NER model would report on
its extracted text. -/
structure UploadedFile where
  name : String
  pdfPages : List String
  pdfThrew : Bool
  docxParas : List String
  docxThrew : Bool
  personSpans : List String
deriving DecidableEq, Repr

/-- `extract_text_from_pdf` (App.py 66–82): append each nonempty page text
plus a newline; an exception (`threw`) only adds a warning, the text
gathered so far is still returned.  The Bool is the warning signal
(`st.warning`). -/
def extract_text_from_pdf (pages : List String) (threw : Bool) : String × Bool :=
  ((pages.map fun page_text =>
      if page_text = "" then "" else page_text ++ "\n").foldl (· ++ ·) "",
   threw)

/-- `extract_text_from_docx` (App.py 84–97): append every paragraph text
plus a newline (no emptiness check); an exception only adds a warning. -/
def extract_text_from_docx (paras : List String) (threw : Bool) : String × Bool :=
  ((paras.map fun para => para ++ "\n").foldl (· ++ ·) "", threw)

/-- `os.path.splitext(name)[1]`: the suffix from the last `.`, unless every
character before that dot is itself a dot (leading dots do not start an
extension). -/
def extOf (name : List Char) : List Char :=
  match ((List.range name.length).filter fun i =>
      name[i]?.any (· == '.')).getLast? with
  | none => []
  | some i => if (name.take i).any (fun c => !(c == '.')) then name.drop i else []

/-- `extract_text` (App.py 99–114): dispatch on the lowercased filename
extension; unsupported extensions yield empty text and a warning. -/
def extract_text (file : UploadedFile) : String × Bool :=
  let file_extension := lowerL (extOf file.name.data)
  if file_extension = ".pdf".data then
    extract_text_from_pdf file.pdfPages file.pdfThrew
  else if file_extension = ".docx".data then
    extract_text_from_docx file.docxParas file.docxThrew
  else
    ("", true)

example : extract_text ⟨"r.txt", [], false, [], false, []⟩ = ("", true) := by
  decide
example : extract_text ⟨"r.PDF", ["abc"], false, [], false, []⟩
    = ("abc\n", false) := by decide

/-- One row of the results table (App.py 268–271 and 285–293). -/
structure CandidateRecord where
  filename : String
  name : String
  email : String
  phone : String
  skillsFound : List String
  score : Nat
  rawText : String
deriving DecidableEq, Repr

/-- The loop body for one uploaded file (App.py 259–295): empty extracted
text produces the `Extraction Failed` placeholder row with score 0;
otherwise the extractors run and the score is computed against the job
keywords.  (`sorted(skills_found)` only reorders the skills column; we keep
the extraction order.) -/
def processFile (job_keywords : List String) (file : UploadedFile) :
    CandidateRecord :=
  let resume_text := (extract_text file).1
  if resume_text = "" then
    { filename := file.name, name := "Extraction Failed", email := "N/A",
      phone := "N/A", skillsFound := [], score := 0, rawText := "" }
  else
    let name := extract_name file.personSpans
    let contact := extract_contact_info resume_text
    let skills_found := extract_skills resume_text TARGET_SKILLS
    { filename := file.name,
      name := name.getD "Not Found",
      email := contact.1.getD "Not Found",
      phone := contact.2.getD "Not Found",
      skillsFound := skills_found,
      score := calculate_match_score skills_found job_keywords,
      rawText := resume_text }

/-- The whole batch (the `for` loop over `uploaded_files`): every file
produces exactly one row, each processed independently. -/
def processAll (job_keywords : List String) (files : List UploadedFile) :
    List CandidateRecord :=
  files.map (processFile job_keywords)

/-!
## Ranking

`ranked_df = results_df.sort_values(by="Score", ascending=False)`
(App.py 301).  pandas sorts a single column through `nargsort`
(pandas/core/sorting.py), which for `ascending=False` first reverses the
values and the index array, then takes the ascending argsort, then
reverses the resulting indexer — the stable-descending idiom, so a stable
underlying argsort leaves equal-key rows in input order.  We model the
ascending argsort as the stable ascending order — what numpy's stable
kinds produce, and what its default introsort produces on inputs this
small (it insertion-sorts short runs) — via `List.insertionSort`, wrapped
in the two reversals. -/

/-- Comparison of result rows by the `Score` column. -/
def scoreLE (a b : CandidateRecord) : Prop := a.score ≤ b.score

instance : DecidableRel scoreLE := fun a b => Nat.decLe a.score b.score

instance : IsTotal CandidateRecord scoreLE := ⟨fun a b => Nat.le_total a.score b.score⟩

instance : IsTrans CandidateRecord scoreLE := ⟨fun _ _ _ => Nat.le_trans⟩

/-- The `sort_values(by="Score", ascending=False)` step: reverse the rows,
sort the reversed list stably ascending by score, and reverse the result —
net effect, the stable descending sort, with equal-score rows in input
order (`reset_index(drop=True)` only renumbers rows and is implicit in the
list representation). -/
def rankedSort (results : List CandidateRecord) : List CandidateRecord :=
  (List.insertionSort scoreLE results.reverse).reverse

/-- `ranked_df.index = ranked_df.index + 1; ranked_df['Rank'] = ranked_df.index`
(App.py 310–311): pair each row of the sorted table with its 1-based
position. -/
def addRanks (l : List CandidateRecord) : List (Nat × CandidateRecord) :=
  ((List.range l.length).zip l).map fun ir => (ir.1 + 1, ir.2)

/-- A candidate row with only the score populated, for concrete tests. -/
def mkRec (fn : String) (sc : Nat) : CandidateRecord :=
  { filename := fn, name := "n", email := "e", phone := "p",
    skillsFound := [], score := sc, rawText := "t" }

example : rankedSort [mkRec "a" 1, mkRec "b" 3, mkRec "c" 2]
    = [mkRec "b" 3, mkRec "c" 2, mkRec "a" 1] := by decide

example : rankedSort [mkRec "a" 1, mkRec "b" 1]
    = [mkRec "a" 1, mkRec "b" 1] := by decide

example : rankedSort [mkRec "a" 2, mkRec "b" 1, mkRec "c" 1]
    = [mkRec "a" 2, mkRec "b" 1, mkRec "c" 1] := by decide

example : addRanks (rankedSort [mkRec "a" 1, mkRec "b" 3]) =
    [(1, mkRec "b" 3), (2, mkRec "a" 1)] := by decide

/-!
## Theorems about the claims
-/

/-- C2: `calculate_match_score(A, B)` equals the cardinality of the
intersection of `A` and `B` as sets; it is never negative (it lives in `ℕ`,
so we record `0 ≤ score`) and never exceeds `min(|set(A)|, |set(B)|)`. -/
theorem c2_score_is_intersection_card (A B : List String) :
    calculate_match_score A B = (A.toFinset ∩ B.toFinset).card ∧
    0 ≤ calculate_match_score A B ∧
    calculate_match_score A B ≤ min A.toFinset.card B.toFinset.card := by
  refine ⟨rfl, Nat.zero_le _, le_min ?_ ?_⟩
  · exact Finset.card_le_card Finset.inter_subset_left
  · exact Finset.card_le_card Finset.inter_subset_right

/-- C9: `extract_skills` is deterministic on the same text (re-running
yields an identical set) and order-independent in the vocabulary: permuting
the vocabulary entries yields the same set of skills. -/
theorem c9_skills_idempotent_order_independent (T T' : String)
    (v v' : List String) (hT : T = T') (hv : v.Perm v') :
    (extract_skills T v).toFinset = (extract_skills T' v').toFinset := by
  subst hT
  refine Finset.ext fun a => ?_
  simp only [List.mem_toFinset]
  exact (hv.filter _).mem_iff

/-- Witness for C9 at a concrete text and a transposed vocabulary. -/
theorem c9_witness :
    ("python and java" : String) = "python and java" ∧
    (["java", "python"] : List String).Perm ["python", "java"] ∧
    (extract_skills "python and java" ["java", "python"]).toFinset
      = (extract_skills "python and java" ["python", "java"]).toFinset :=
  ⟨rfl, by decide,
    c9_skills_idempotent_order_independent "python and java" "python and java"
      ["java", "python"] ["python", "java"] rfl (by decide)⟩

/-- C5: on empty input text there is no name (the NER model reports no
spans on empty text), no email, no phone, an empty skill set, and score 0;
all the operations are total functions, so none can raise. -/
theorem c5_empty_text_defaults (v k : List String) :
    extract_name [] = none ∧
    extract_contact_info "" = (none, none) ∧
    extract_skills "" v = [] ∧
    calculate_match_score (extract_skills "" v) k = 0 := by
  have hskills : extract_skills "" v = [] := by
    apply List.filter_eq_nil_iff.mpr
    intro skill _
    simp [wholeWordMatch, lowerL, List.range_succ, matchAt, boundaryAt,
      leftIsWordAt, isWordAt]
  refine ⟨rfl, by decide, hskills, ?_⟩
  rw [hskills]
  simp [calculate_match_score]

/-- C6: `extract_contact_info` returns exactly the first match of the
email pattern in the text (or `none` when there is no match) and,
independently, the first match of the phone pattern; all later matches of
either kind are discarded. -/
theorem c6_first_match_of_each_kind (text : String) :
    extract_contact_info text =
      ((pyFindall emailRE text.data).head?.map String.mk,
       (pyFindall phoneRE text.data).head?.map String.mk) := by
  simp only [extract_contact_info]
  cases pyFindall emailRE text.data <;> cases pyFindall phoneRE text.data <;> rfl

/-- C7: `extract_name` returns the first PERSON span with more than one
token; when no span has more than one token it returns the first span of
any length; with no spans at all it returns `none`. -/
theorem c7_first_person_span_policy (spans pre post : List String) (s : String)
    (hsplit : spans = pre ++ s :: post)
    (hpre : ∀ x ∈ pre, multiToken x = false)
    (hs : multiToken s = true) :
    extract_name spans = some s ∧
    (∀ others : List String, (∀ x ∈ others, multiToken x = false) →
      extract_name others = others.head?) ∧
    extract_name [] = none := by
  refine ⟨?_, ?_, rfl⟩
  · subst hsplit
    have hfind : (pre ++ s :: post).find? multiToken = some s := by
      rw [List.find?_append]
      have : pre.find? multiToken = none :=
        List.find?_eq_none.mpr (by simpa using hpre)
      rw [this, Option.none_or, List.find?_cons, hs]
    simp [extract_name, hfind]
  · intro others hothers
    have hfind : others.find? multiToken = none :=
      List.find?_eq_none.mpr (by simpa using hothers)
    simp [extract_name, hfind]

/-- Witness for C7 on spans in which only the second has two tokens. -/
theorem c7_witness :
    (["Acme", "Jane Doe"] : List String) = ["Acme"] ++ "Jane Doe" :: [] ∧
    (∀ x ∈ (["Acme"] : List String), multiToken x = false) ∧
    multiToken "Jane Doe" = true ∧
    extract_name ["Acme", "Jane Doe"] = some "Jane Doe" :=
  ⟨rfl, by decide, by decide,
    (c7_first_person_span_policy ["Acme", "Jane Doe"] ["Acme"] [] "Jane Doe"
      rfl (by decide) (by decide)).1⟩

/-- C10: the phone pattern is not anchored, so in a text that is a run of
eleven consecutive digits `extract_contact_info` reports the first ten
digits as a phone number instead of finding no phone. -/
theorem c10_phone_matches_inside_digit_run :
    ("12345678901" : String).data.all Char.isDigit = true ∧
    ("12345678901" : String).length = 11 ∧
    (extract_contact_info "12345678901").2 = some "1234567890" ∧
    ("1234567890" : String).length = 10 := by
  refine ⟨by decide, by decide, by decide, by decide⟩

/-- Characters covered by a match agree between the text and the pattern. -/
theorem getElem?_of_matchAt {pat t : List Char} {i k : Nat}
    (hm : matchAt pat t i = true) (hk : k < pat.length) : t[i + k]? = pat[k]? := by
  have h := of_decide_eq_true hm
  calc t[i + k]? = (t.drop i)[k]? := (List.getElem?_drop t i k).symm
    _ = ((t.drop i).take pat.length)[k]? := (List.getElem?_take_of_lt hk).symm
    _ = pat[k]? := by rw [h]

/-- When the pattern starts with a word character, the leading `\b` at a
match position succeeds exactly when the character to the left is absent or
a non-word character. -/
theorem boundary_eq_of_match_left {pat t : List Char} {i : Nat}
    (hw : wordBounded pat = true) (hm : matchAt pat t i = true) :
    boundaryAt t i = !(leftIsWordAt t i) := by
  simp only [wordBounded, Bool.and_eq_true] at hw
  have hpat : pat ≠ [] := by
    intro h
    rw [h] at hw
    simp at hw
  obtain ⟨c, cs, rfl⟩ := List.exists_cons_of_ne_nil hpat
  have hc : isWordChar c = true := by simpa using hw.1
  have ht : t[i]? = some c := by
    have h0 := getElem?_of_matchAt hm (k := 0) (by simp)
    simpa using h0
  have hwd : isWordAt t i = true := by simp [isWordAt, ht, hc]
  unfold boundaryAt
  rw [hwd]
  cases leftIsWordAt t i <;> rfl

/-- When the pattern ends with a word character, the trailing `\b` at a
match succeeds exactly when the character after the match is absent or a
non-word character. -/
theorem boundary_eq_of_match_right {pat t : List Char} {i : Nat}
    (hw : wordBounded pat = true) (hm : matchAt pat t i = true) :
    boundaryAt t (i + pat.length) = !(isWordAt t (i + pat.length)) := by
  simp only [wordBounded, Bool.and_eq_true] at hw
  have hpat : pat ≠ [] := by
    intro h
    rw [h] at hw
    simp at hw
  obtain ⟨n, hn⟩ := Nat.exists_eq_succ_of_ne_zero
    (fun h => hpat (List.length_eq_zero.mp h))
  obtain ⟨d, hd, hdw⟩ : ∃ d, pat.getLast? = some d ∧ isWordChar d = true := by
    cases hl : pat.getLast? with
    | none => rw [hl] at hw; simp at hw
    | some d =>
        refine ⟨d, rfl, ?_⟩
        rw [hl] at hw
        simpa using hw.2
  have hlast : pat[n]? = some d := by
    rw [List.getLast?_eq_getElem?, hn] at hd
    simpa using hd
  have htn : t[i + n]? = some d := by
    rw [getElem?_of_matchAt hm (k := n) (by omega), hlast]
  have hleft : leftIsWordAt t (i + pat.length) = true := by
    rw [hn, Nat.add_succ]
    show isWordAt t (i + n) = true
    simp [isWordAt, htn, hdw]
  unfold boundaryAt
  rw [hleft]
  cases isWordAt t (i + pat.length) <;> rfl

/-- For a pattern beginning and ending with word characters, the `\b`-regex
whole-word search coincides with the spec's edge-or-non-word-bounded
occurrence test. -/
theorem wholeWord_eq_spec_of_wordBounded {pat t : List Char}
    (hw : wordBounded pat = true) :
    wholeWordMatch pat t =
      ((List.range (t.length + 1)).any fun i =>
        matchAt pat t i && !(leftIsWordAt t i) && !(isWordAt t (i + pat.length))) := by
  unfold wholeWordMatch
  congr 1
  funext i
  cases hm : matchAt pat t i
  · rfl
  · rw [boundary_eq_of_match_left hw hm, boundary_eq_of_match_right hw hm]

/-- C1 (amended): for vocabulary entries whose lowercased form begins and
ends with a word character, membership in `extract_skills(T, vocabulary)`
is exactly "listed in the vocabulary and occurring in the text as a
case-insensitive whole word bounded by non-word characters or text edges"
— in particular an occurrence only inside a longer word never matches.
For entries that start or end with a non-word character (e.g. `c++`), the
regex `\b` instead demands an adjacent word character, so such an entry can
fail to match even when bounded by text edges. -/
theorem c1_whole_word_matching_amended (S T : String) (vocab : List String)
    (hS : wordBounded (lowerL S.data) = true) :
    S ∈ extract_skills T vocab ↔
      S ∈ vocab ∧ specWholeWordOccurs S T = true := by
  have h := wholeWord_eq_spec_of_wordBounded (t := lowerL T.data) hS
  simp only [extract_skills, List.mem_filter, specWholeWordOccurs, h]

/-- Counterexample to C1 as stated: `c++` is a vocabulary entry and the
text `"c++"` contains it bounded by text edges on both sides, yet
`extract_skills` does not report it (the trailing `\b` after `+` cannot
match). -/
theorem c1_counterexample :
    "c++" ∈ TARGET_SKILLS ∧ specWholeWordOccurs "c++" "c++" = true ∧
    extract_skills "c++" TARGET_SKILLS = [] := by
  refine ⟨by decide, by decide, by decide⟩

/-- Witness for C1 (amended) at the spec's own example: `java` and
`javascript` in a text containing both. -/
theorem c1_witness :
    wordBounded (lowerL ("java" : String).data) = true ∧
    ("java" ∈ extract_skills "I write javascript and java daily"
        ["java", "javascript"] ↔
      "java" ∈ (["java", "javascript"] : List String) ∧
        specWholeWordOccurs "java" "I write javascript and java daily" = true) :=
  ⟨by decide,
    c1_whole_word_matching_amended "java" "I write javascript and java daily"
      ["java", "javascript"] (by decide)⟩

/-- C8: rank assignment is dense and 1-based over the sorted output — the
rank column of the ranked table is exactly `[1, 2, ..., n]`, and the first
sorted record gets rank 1. -/
theorem c8_dense_one_based_ranks (results : List CandidateRecord)
    (h : results ≠ []) :
    (addRanks (rankedSort results)).map Prod.fst
      = List.range' 1 results.length ∧
    (addRanks (rankedSort results)).head?.map Prod.fst = some 1 := by
  have hlen : (rankedSort results).length = results.length := by
    rw [rankedSort, List.length_reverse,
      (List.perm_insertionSort scoreLE results.reverse).length_eq,
      List.length_reverse]
  have hmap : (addRanks (rankedSort results)).map Prod.fst
      = List.range' 1 results.length := by
    rw [addRanks]
    have h1 : ((List.range (rankedSort results).length).zip
        (rankedSort results)).map Prod.fst
        = List.range (rankedSort results).length :=
      List.map_fst_zip _ _ (by rw [List.length_range])
    have h2 : (Prod.fst ∘ fun ir : Nat × CandidateRecord => (ir.1 + 1, ir.2))
        = (fun k => k + 1) ∘ Prod.fst := rfl
    rw [List.map_map, h2, ← List.map_map, h1, hlen, List.range'_eq_map_range]
    exact List.map_congr_left fun k _ => Nat.add_comm k 1
  refine ⟨hmap, ?_⟩
  rw [← List.head?_map, hmap]
  obtain ⟨m, hm⟩ := Nat.exists_eq_succ_of_ne_zero
    (fun hz => h (List.length_eq_zero.mp hz))
  rw [hm, List.range'_succ]
  rfl

/-- Witness for C8 on a concrete two-record batch. -/
theorem c8_witness :
    ([mkRec "a" 1, mkRec "b" 3] : List CandidateRecord) ≠ [] ∧
    (addRanks (rankedSort [mkRec "a" 1, mkRec "b" 3])).map Prod.fst
      = List.range' 1 2 ∧
    (addRanks (rankedSort [mkRec "a" 1, mkRec "b" 3])).head?.map Prod.fst
      = some 1 := by
  have h := c8_dense_one_based_ranks [mkRec "a" 1, mkRec "b" 3] (by decide)
  exact ⟨by decide, h.1, h.2⟩

/-- Counterexample to C4 as stated: a PDF whose reader yields one page of
text and then raises mid-parse produces a warning, but the extracted text
is the partial page text rather than empty, and the candidate is then
processed normally (here: name `Not Found`) instead of being marked
`Extraction Failed`. -/
theorem c4_counterexample :
    extract_text ⟨"partial.pdf", ["abc"], true, [], false, []⟩
      = ("abc\n", true) ∧
    ("abc\n" : String) ≠ "" ∧
    (processAll [] [⟨"partial.pdf", ["abc"], true, [], false, []⟩]).map
      (fun r => r.name) = ["Not Found"] := by
  refine ⟨by decide, by decide, by decide⟩

/-- C4 (amended): an unsupported declared format yields empty text plus a
warning; a reader that throws before yielding any text yields empty text
plus a warning; and the batch loop is total and isolates failures — the
results list has one row per file and any file whose extracted text is
empty appears as the `Extraction Failed` row with score 0, with every other
file still processed.  (If the reader throws after some pages were already
read, the partial text is kept and that candidate is processed normally.) -/
theorem c4_failures_isolated_amended (fileU fileP : UploadedFile)
    (jobkw : List String) (files : List UploadedFile) (i : Nat)
    (h1 : lowerL (extOf fileU.name.data) ≠ ".pdf".data)
    (h2 : lowerL (extOf fileU.name.data) ≠ ".docx".data)
    (h3 : lowerL (extOf fileP.name.data) = ".pdf".data)
    (h4 : fileP.pdfPages = [])
    (hi : i < files.length)
    (h5 : (extract_text files[i]).1 = "") :
    extract_text fileU = ("", true) ∧
    extract_text fileP = ("", fileP.pdfThrew) ∧
    (processAll jobkw files).length = files.length ∧
    (processAll jobkw files)[i]? = some
      { filename := files[i].name, name := "Extraction Failed", email := "N/A",
        phone := "N/A", skillsFound := [], score := 0, rawText := "" } := by
  refine ⟨?_, ?_, ?_, ?_⟩
  · simp only [extract_text]
    rw [if_neg h1, if_neg h2]
  · simp only [extract_text]
    rw [if_pos h3, h4]
    rfl
  · simp [processAll]
  · rw [processAll, List.getElem?_map, List.getElem?_eq_getElem hi]
    simp only [Option.map_some']
    simp only [processFile, h5]
    rfl

/-- Witness for C4 (amended): a `.txt` upload and a PDF whose reader raises
before yielding any page, in a one-file batch. -/
theorem c4_witness :
    lowerL (extOf ("resume.txt" : String).data) ≠ ".pdf".data ∧
    lowerL (extOf ("resume.txt" : String).data) ≠ ".docx".data ∧
    lowerL (extOf ("broken.pdf" : String).data) = ".pdf".data ∧
    extract_text ⟨"resume.txt", [], false, [], false, []⟩ = ("", true) ∧
    extract_text ⟨"broken.pdf", [], true, [], false, []⟩ = ("", true) ∧
    (processAll ["python"] [⟨"resume.txt", [], false, [], false, []⟩]).length
      = 1 ∧
    (processAll ["python"] [⟨"resume.txt", [], false, [], false, []⟩])[0]?
      = some
        { filename := "resume.txt", name := "Extraction Failed",
          email := "N/A", phone := "N/A", skillsFound := [], score := 0,
          rawText := "" } := by
  have h := c4_failures_isolated_amended
    ⟨"resume.txt", [], false, [], false, []⟩
    ⟨"broken.pdf", [], true, [], false, []⟩
    ["python"] [⟨"resume.txt", [], false, [], false, []⟩] 0
    (by decide) (by decide) (by decide) (by decide) (by decide) (by decide)
  exact ⟨by decide, by decide, by decide, h.1, h.2.1, h.2.2.1, h.2.2.2⟩
